import Mathlib

/-!
Shallow embedding of `anomaly_detector.py` (security-log-anomaly-detector).

The program parses an authentication log line by line, tallies
`LOGIN_FAILED` events per user, filters users at or above a threshold,
and prints a summary sorted by failure count descending.

Python dictionaries preserve insertion order, so the tally is embedded as
an association list `List (String × Nat)` where updating an existing key
keeps its position and a new key is appended at the end.  Python string
primitives (`str.strip`, `str.split`, `str.upper`, `int(...)`) are embedded
as structural functions over `List Char` so that every definition reduces
in the kernel.
-/

namespace AnomalyDetector

/-- Models Python `str.strip()`: drop leading and trailing whitespace. -/
def pyStrip (s : String) : String :=
  String.mk (((s.toList.dropWhile Char.isWhitespace).reverse.dropWhile
      Char.isWhitespace).reverse)

/-- Helper for `pySplit`: walk the characters, accumulating the current
word in reverse; whitespace runs end a word, and no empty words are kept. -/
def wordsAux : List Char → List Char → List (List Char)
  | [], cur => if cur = [] then [] else [cur.reverse]
  | c :: cs, cur =>
    if c.isWhitespace then
      if cur = [] then wordsAux cs [] else cur.reverse :: wordsAux cs []
    else wordsAux cs (c :: cur)

/-- Models Python `str.split()` with no argument: split on runs of
whitespace, never producing empty tokens. -/
def pySplit (s : String) : List String :=
  (wordsAux s.toList []).map String.mk

/-- Models Python `str.upper()` on the characters the program compares
(ASCII event-kind tokens). -/
def pyUpper (s : String) : String :=
  String.mk (s.toList.map Char.toUpper)

/-- `failed_attempts.get(user, 0)` on the insertion-ordered tally. -/
def tallyGet (t : List (String × Nat)) (u : String) : Nat :=
  match t.find? (fun p => p.1 = u) with
  | some p => p.2
  | none => 0

/-- `failed_attempts[user] = failed_attempts.get(user, 0) + 1`:
update an existing key in place, or append a fresh entry with count 1. -/
def tallyIncr (t : List (String × Nat)) (u : String) : List (String × Nat) :=
  match t with
  | [] => [(u, 1)]
  | (k, v) :: rest => if k = u then (k, v + 1) :: rest else (k, v) :: tallyIncr rest u

/-- The triple returned by `load_failed_attempts`. -/
structure ParseResult where
  failed_attempts : List (String × Nat)
  total_lines : Nat
  total_failed : Nat
deriving DecidableEq

/-- One iteration of the loop body of `load_failed_attempts`
(`anomaly_detector.py` lines 37-54): increment `total_lines`, strip the
line, skip it if empty or under 4 tokens, and otherwise tally the event
when the upper-cased fourth token is `LOGIN_FAILED`. -/
def processLine (st : ParseResult) (rawLine : String) : ParseResult :=
  let stL := { st with total_lines := st.total_lines + 1 }
  let line := pyStrip rawLine
  if line = "" then stL
  else
    let parts := pySplit line
    if parts.length < 4 then stL
    else
      let user := parts.getD 2 ""
      let event := pyUpper (parts.getD 3 "")
      if event = "LOGIN_FAILED" then
        { stL with
          total_failed := stL.total_failed + 1,
          failed_attempts := tallyIncr stL.failed_attempts user }
      else stL

/-- `load_failed_attempts`: fold the loop body over the input lines,
starting from an empty tally and zeroed statistics. -/
def load_failed_attempts (lines : List String) : ParseResult :=
  lines.foldl processLine { failed_attempts := [], total_lines := 0, total_failed := 0 }

/-- `find_suspicious_users`: keep the tally entries whose count is at
least the (possibly negative) integer threshold. -/
def find_suspicious_users (failed_attempts : List (String × Nat))
    (threshold : Int) : List (String × Nat) :=
  failed_attempts.filter (fun p => decide (threshold ≤ (p.2 : Int)))

/-- Stable insertion of one entry into a list ordered by count descending:
the new entry goes in front of the first entry whose count it meets or
exceeds, so earlier-seen entries stay ahead of later ties. -/
def insertDesc (x : String × Nat) : List (String × Nat) → List (String × Nat)
  | [] => [x]
  | y :: ys => if y.2 ≤ x.2 then x :: y :: ys else y :: insertDesc x ys

/-- Models Python `sorted(items, key=lambda x: x[1], reverse=True)`:
a stable sort by count descending. -/
def sortDesc : List (String × Nat) → List (String × Nat)
  | [] => []
  | x :: xs => insertDesc x (sortDesc xs)

/-- The ordered listing produced by the `Suspicious users` section of
`print_summary` (`anomaly_detector.py` lines 97-99): the suspicious
entries sorted by failure count descending. -/
def print_summary_listing (failed_attempts : List (String × Nat))
    (threshold : Int) : List (String × Nat) :=
  sortDesc (find_suspicious_users failed_attempts threshold)

/-- Accumulator for `digitsVal`: consume decimal digits, failing on any
other character. -/
def digitsValAux : List Char → Nat → Option Nat
  | [], acc => some acc
  | c :: cs, acc =>
    if c.isDigit then digitsValAux cs (acc * 10 + (c.toNat - 48)) else none

/-- Value of a non-empty all-digit character sequence, `none` otherwise. -/
def digitsVal : List Char → Option Nat
  | [] => none
  | c :: cs => digitsValAux (c :: cs) 0

/-- Models Python `int(s)` on strings (sign and decimal digits, with
surrounding whitespace ignored; digit-group underscores are not
modelled): `none` when `int` would raise `ValueError`. -/
def pyInt? (s : String) : Option Int :=
  match (pyStrip s).toList with
  | '-' :: rest => (digitsVal rest).map (fun n => -(n : Int))
  | '+' :: rest => (digitsVal rest).map (fun n => (n : Int))
  | cs => (digitsVal cs).map (fun n => (n : Int))

def DEFAULT_LOG_FILE : String := "logs/auth.log"

def DEFAULT_FAILED_THRESHOLD : Int := 5

/-- Result of `parse_args`; `diagnostic` records whether the
`Invalid threshold value` message was printed. -/
structure ArgsResult where
  log_path : String
  threshold : Int
  diagnostic : Bool
deriving DecidableEq

/-- `parse_args` (`anomaly_detector.py` lines 102-127): optional log path
from `argv[1]`, optional threshold from `argv[2]`; a threshold that fails
to parse as an integer falls back to the default with a diagnostic. -/
def parse_args (argv : List String) : ArgsResult :=
  let log_path := if 2 ≤ argv.length then argv.getD 1 "" else DEFAULT_LOG_FILE
  if 3 ≤ argv.length then
    match pyInt? (argv.getD 2 "") with
    | some n => { log_path := log_path, threshold := n, diagnostic := false }
    | none =>
        { log_path := log_path, threshold := DEFAULT_FAILED_THRESHOLD,
          diagnostic := true }
  else
    { log_path := log_path, threshold := DEFAULT_FAILED_THRESHOLD,
      diagnostic := false }

/-- Sum of all counts in a tally. -/
def tallySum (t : List (String × Nat)) : Nat :=
  (t.map Prod.snd).sum

theorem tallySum_tallyIncr (t : List (String × Nat)) (u : String) :
    tallySum (tallyIncr t u) = tallySum t + 1 := by
  induction t with
  | nil => simp [tallyIncr, tallySum]
  | cons hd tl ih =>
    obtain ⟨k, v⟩ := hd
    by_cases h : k = u
    · simp [tallyIncr, h, tallySum]
      omega
    · simp only [tallyIncr, if_neg h, tallySum, List.map_cons, List.sum_cons]
      simp only [tallySum] at ih
      omega

theorem mem_keys_tallyIncr {t : List (String × Nat)} {u x : String}
    (h : x ∈ (tallyIncr t u).map Prod.fst) :
    x ∈ t.map Prod.fst ∨ x = u := by
  induction t with
  | nil => simpa [tallyIncr] using h
  | cons hd tl ih =>
    obtain ⟨k, v⟩ := hd
    by_cases hk : k = u
    · simp only [tallyIncr, if_pos hk] at h
      simp only [List.map_cons] at h ⊢
      exact Or.inl h
    · simp only [tallyIncr, if_neg hk, List.map_cons, List.mem_cons] at h ⊢
      rcases h with h | h
      · exact Or.inl (Or.inl h)
      · rcases ih h with h1 | h1
        · exact Or.inl (Or.inr h1)
        · exact Or.inr h1

theorem nodup_keys_tallyIncr {t : List (String × Nat)} {u : String}
    (h : (t.map Prod.fst).Nodup) : ((tallyIncr t u).map Prod.fst).Nodup := by
  induction t with
  | nil => simp [tallyIncr]
  | cons hd tl ih =>
    obtain ⟨k, v⟩ := hd
    simp only [List.map_cons, List.nodup_cons] at h
    by_cases hk : k = u
    · simp only [tallyIncr, if_pos hk, List.map_cons, List.nodup_cons]
      exact ⟨h.1, h.2⟩
    · simp only [tallyIncr, if_neg hk, List.map_cons, List.nodup_cons]
      refine ⟨fun hmem => ?_, ih h.2⟩
      rcases mem_keys_tallyIncr hmem with h1 | h1
      · exact h.1 h1
      · exact hk h1

theorem pos_tallyIncr {t : List (String × Nat)} {u : String}
    (h : ∀ p ∈ t, 1 ≤ p.2) : ∀ p ∈ tallyIncr t u, 1 ≤ p.2 := by
  induction t with
  | nil =>
    intro p hp
    simp only [tallyIncr, List.mem_singleton] at hp
    simp [hp]
  | cons hd tl ih =>
    obtain ⟨k, v⟩ := hd
    intro p hp
    by_cases hk : k = u
    · simp only [tallyIncr, if_pos hk, List.mem_cons] at hp
      rcases hp with hp | hp
      · simp [hp]
      · exact h p (List.mem_cons_of_mem _ hp)
    · simp only [tallyIncr, if_neg hk, List.mem_cons] at hp
      rcases hp with hp | hp
      · exact h p (hp ▸ List.mem_cons_self _ _)
      · exact ih (fun q hq => h q (List.mem_cons_of_mem _ hq)) p hp

theorem length_le_tallySum {t : List (String × Nat)}
    (h : ∀ p ∈ t, 1 ≤ p.2) : t.length ≤ tallySum t := by
  induction t with
  | nil => simp [tallySum]
  | cons hd tl ih =>
    simp only [List.length_cons, tallySum, List.map_cons, List.sum_cons]
    have h1 : 1 ≤ hd.2 := h hd (List.mem_cons_self _ _)
    have h2 : tl.length ≤ tallySum tl :=
      ih (fun q hq => h q (List.mem_cons_of_mem _ hq))
    simp only [tallySum] at h2
    omega

/-- The loop invariant of `load_failed_attempts`: the failure total is the
sum of the tally, every tallied count is positive, the tallied users are
distinct, and no more failures than lines have been seen. -/
def ParseInv (st : ParseResult) : Prop :=
  st.total_failed = tallySum st.failed_attempts ∧
  (∀ p ∈ st.failed_attempts, 1 ≤ p.2) ∧
  (st.failed_attempts.map Prod.fst).Nodup ∧
  st.total_failed ≤ st.total_lines

/-- Each line either only bumps `total_lines` (blank, malformed, or a
non-failure event) or additionally bumps `total_failed` and tallies the
user in field index 2. -/
theorem processLine_cases (st : ParseResult) (raw : String) :
    processLine st raw = { st with total_lines := st.total_lines + 1 } ∨
    processLine st raw =
      { failed_attempts :=
          tallyIncr st.failed_attempts ((pySplit (pyStrip raw)).getD 2 ""),
        total_lines := st.total_lines + 1,
        total_failed := st.total_failed + 1 } := by
  unfold processLine
  by_cases he : pyStrip raw = ""
  · left
    simp [he]
  · by_cases hlen : (pySplit (pyStrip raw)).length < 4
    · left
      simp [he, hlen]
    · by_cases hev : pyUpper ((pySplit (pyStrip raw)).getD 3 "") = "LOGIN_FAILED"
      · right
        simp only [List.getD_eq_getElem?_getD] at hev
        simp [he, hlen, hev]
      · left
        simp only [List.getD_eq_getElem?_getD] at hev
        simp [he, hlen, hev]

theorem processLine_inv {st : ParseResult} (rawLine : String)
    (h : ParseInv st) : ParseInv (processLine st rawLine) := by
  obtain ⟨h1, h2, h3, h4⟩ := h
  rcases processLine_cases st rawLine with hc | hc <;> rw [hc] <;> unfold ParseInv
  · refine ⟨?_, ?_, ?_, ?_⟩
    · show st.total_failed = tallySum st.failed_attempts
      exact h1
    · show ∀ p ∈ st.failed_attempts, 1 ≤ p.2
      exact h2
    · show (st.failed_attempts.map Prod.fst).Nodup
      exact h3
    · show st.total_failed ≤ st.total_lines + 1
      omega
  · refine ⟨?_, ?_, ?_, ?_⟩
    · show st.total_failed + 1 =
        tallySum (tallyIncr st.failed_attempts ((pySplit (pyStrip rawLine)).getD 2 ""))
      rw [tallySum_tallyIncr, h1]
    · show ∀ p ∈ tallyIncr st.failed_attempts ((pySplit (pyStrip rawLine)).getD 2 ""), 1 ≤ p.2
      exact pos_tallyIncr h2
    · show ((tallyIncr st.failed_attempts
          ((pySplit (pyStrip rawLine)).getD 2 "")).map Prod.fst).Nodup
      exact nodup_keys_tallyIncr h3
    · show st.total_failed + 1 ≤ st.total_lines + 1
      omega

theorem foldl_processLine_inv (lines : List String) {st : ParseResult}
    (h : ParseInv st) : ParseInv (lines.foldl processLine st) := by
  induction lines generalizing st with
  | nil => exact h
  | cons l ls ih => exact ih (processLine_inv l h)

theorem load_inv (lines : List String) :
    ParseInv (load_failed_attempts lines) := by
  refine foldl_processLine_inv lines ?_
  refine ⟨rfl, ?_, ?_, Nat.le_refl 0⟩ <;> simp [tallySum]

theorem perm_insertDesc (x : String × Nat) (l : List (String × Nat)) :
    (insertDesc x l).Perm (x :: l) := by
  induction l with
  | nil => exact List.Perm.refl _
  | cons y ys ih =>
    unfold insertDesc
    by_cases h : y.2 ≤ x.2
    · rw [if_pos h]
    · rw [if_neg h]
      exact (List.Perm.cons y ih).trans (List.Perm.swap x y ys)

theorem mem_insertDesc {a x : String × Nat} {l : List (String × Nat)}
    (h : a ∈ insertDesc x l) : a = x ∨ a ∈ l := by
  have := (perm_insertDesc x l).mem_iff.mp h
  simpa using this

theorem pairwise_insertDesc {x : String × Nat} {l : List (String × Nat)}
    (h : l.Pairwise (fun a b => b.2 ≤ a.2)) :
    (insertDesc x l).Pairwise (fun a b => b.2 ≤ a.2) := by
  induction l with
  | nil => simp [insertDesc]
  | cons y ys ih =>
    rw [List.pairwise_cons] at h
    unfold insertDesc
    by_cases hc : y.2 ≤ x.2
    · rw [if_pos hc, List.pairwise_cons]
      refine ⟨?_, List.pairwise_cons.mpr h⟩
      intro b hb
      rcases List.mem_cons.mp hb with hb | hb
      · exact hb ▸ hc
      · exact Nat.le_trans (h.1 b hb) hc
    · rw [if_neg hc, List.pairwise_cons]
      refine ⟨?_, ih h.2⟩
      intro b hb
      rcases mem_insertDesc hb with hb | hb
      · exact hb ▸ Nat.le_of_lt (Nat.lt_of_not_le hc)
      · exact h.1 b hb

theorem perm_sortDesc (l : List (String × Nat)) : (sortDesc l).Perm l := by
  induction l with
  | nil => exact List.Perm.refl _
  | cons x xs ih =>
    exact (perm_insertDesc x (sortDesc xs)).trans (List.Perm.cons x ih)

theorem pairwise_sortDesc (l : List (String × Nat)) :
    (sortDesc l).Pairwise (fun a b => b.2 ≤ a.2) := by
  induction l with
  | nil => simp [sortDesc]
  | cons x xs ih => exact pairwise_insertDesc ih

/-- A line whose stripped form splits into fewer than 4 tokens (blank
lines included) only bumps `total_lines`. -/
theorem processLine_skip (st : ParseResult) {raw : String}
    (h : (pySplit (pyStrip raw)).length < 4) :
    processLine st raw = { st with total_lines := st.total_lines + 1 } := by
  unfold processLine
  by_cases he : pyStrip raw = ""
  · simp [he]
  · simp [he, h]

/-- `pySplit` of the empty string is empty. -/
theorem pySplit_empty : pySplit "" = [] := rfl

/-- Two raw lines that strip-and-split to the same first three tokens and
trailing tokens, with fourth tokens that upper-case to `LOGIN_FAILED`,
are processed identically. -/
theorem processLine_event_congr (st : ParseResult) {raw1 raw2 a b u e1 e2 : String}
    {rest : List String}
    (he1 : pyUpper e1 = "LOGIN_FAILED") (he2 : pyUpper e2 = "LOGIN_FAILED")
    (h1 : pySplit (pyStrip raw1) = a :: b :: u :: e1 :: rest)
    (h2 : pySplit (pyStrip raw2) = a :: b :: u :: e2 :: rest) :
    processLine st raw1 = processLine st raw2 := by
  have hne1 : pyStrip raw1 ≠ "" := by
    intro hc
    rw [hc, pySplit_empty] at h1
    exact List.noConfusion h1
  have hne2 : pyStrip raw2 ≠ "" := by
    intro hc
    rw [hc, pySplit_empty] at h2
    exact List.noConfusion h2
  unfold processLine
  rw [if_neg hne1, if_neg hne2, h1, h2]
  simp [he1, he2]

/-- The six input lines of Scenario A from the specification. -/
def scenarioA : List String :=
  ["2025-11-10 17:33:04 alice LOGIN_FAILED",
   "2025-11-10 17:33:10 alice LOGIN_FAILED",
   "2025-11-10 17:33:20 bob LOGIN_SUCCESS",
   "",
   "malformed line",
   "2025-11-10 17:34:00 alice login_failed"]

/-- Claim C1: for every input line sequence, the `total_failed` returned
by `load_failed_attempts` equals the sum of all counts in the returned
tally (every counted failure is attributed to exactly one user). -/
theorem claim_C1_conservation (lines : List String) :
    (load_failed_attempts lines).total_failed =
      tallySum (load_failed_attempts lines).failed_attempts :=
  (load_inv lines).1

/-- Claim C2: the six Scenario A lines yield `total_lines = 6`,
`total_failed = 3` and tally `{alice: 3}`; filtering that tally with
threshold 3 yields `{alice: 3}` and with threshold 4 the empty mapping. -/
theorem claim_C2_scenarioA :
    load_failed_attempts scenarioA =
        { failed_attempts := [("alice", 3)], total_lines := 6, total_failed := 3 } ∧
      find_suspicious_users (load_failed_attempts scenarioA).failed_attempts 3 =
        [("alice", 3)] ∧
      find_suspicious_users (load_failed_attempts scenarioA).failed_attempts 4 = [] := by
  decide

/-- Claim C3: for every tally and integer thresholds `t1 ≤ t2`, every
entry of `find_suspicious_users tally t2` is also an entry of
`find_suspicious_users tally t1`. -/
theorem claim_C3_filter_monotone (tally : List (String × Nat)) (t1 t2 : Int)
    (h12 : t1 ≤ t2) (u : String) (c : Nat)
    (hm : (u, c) ∈ find_suspicious_users tally t2) :
    (u, c) ∈ find_suspicious_users tally t1 := by
  unfold find_suspicious_users at hm ⊢
  rw [List.mem_filter] at hm ⊢
  refine ⟨hm.1, decide_eq_true ?_⟩
  exact le_trans h12 (of_decide_eq_true hm.2)

theorem claim_C3_witness :
    (2 : Int) ≤ 3 ∧
      ("bob", 5) ∈ find_suspicious_users [("alice", 3), ("bob", 5)] 2 :=
  ⟨by decide,
   claim_C3_filter_monotone [("alice", 3), ("bob", 5)] 2 3 (by decide) "bob" 5
     (by decide)⟩

/-- Claim C4: appending a line whose stripped form has fewer than 4
whitespace-delimited tokens (blank and whitespace-only lines included)
leaves the tally and `total_failed` unchanged and increments
`total_lines` by exactly one. -/
theorem claim_C4_malformed_frame (lines : List String) (raw : String)
    (h : (pySplit (pyStrip raw)).length < 4) :
    (load_failed_attempts (lines ++ [raw])).failed_attempts =
        (load_failed_attempts lines).failed_attempts ∧
      (load_failed_attempts (lines ++ [raw])).total_failed =
        (load_failed_attempts lines).total_failed ∧
      (load_failed_attempts (lines ++ [raw])).total_lines =
        (load_failed_attempts lines).total_lines + 1 := by
  unfold load_failed_attempts
  rw [List.foldl_append, List.foldl_cons, List.foldl_nil, processLine_skip _ h]
  exact ⟨rfl, rfl, rfl⟩

theorem claim_C4_witness :
    (pySplit (pyStrip "malformed line")).length < 4 ∧
      ((load_failed_attempts
            (["2025-11-10 17:33:04 alice LOGIN_FAILED"] ++
              ["malformed line"])).failed_attempts =
          (load_failed_attempts
            ["2025-11-10 17:33:04 alice LOGIN_FAILED"]).failed_attempts ∧
        (load_failed_attempts
            (["2025-11-10 17:33:04 alice LOGIN_FAILED"] ++
              ["malformed line"])).total_failed =
          (load_failed_attempts
            ["2025-11-10 17:33:04 alice LOGIN_FAILED"]).total_failed ∧
        (load_failed_attempts
            (["2025-11-10 17:33:04 alice LOGIN_FAILED"] ++
              ["malformed line"])).total_lines =
          (load_failed_attempts
            ["2025-11-10 17:33:04 alice LOGIN_FAILED"]).total_lines + 1) :=
  ⟨by decide,
   claim_C4_malformed_frame ["2025-11-10 17:33:04 alice LOGIN_FAILED"]
     "malformed line" (by decide)⟩

/-- Claim C5: in a well-formed line (at least 4 tokens) the event-kind
tokens `login_failed`, `Login_Failed` and `LOGIN_FAILED` are treated
identically: two inputs identical except for that choice of fourth token
produce the same tally, `total_lines` and `total_failed`. -/
theorem claim_C5_case_insensitive (pre post : List String)
    (raw1 raw2 a b u e1 e2 : String) (rest : List String)
    (he1 : e1 = "login_failed" ∨ e1 = "Login_Failed" ∨ e1 = "LOGIN_FAILED")
    (he2 : e2 = "login_failed" ∨ e2 = "Login_Failed" ∨ e2 = "LOGIN_FAILED")
    (h1 : pySplit (pyStrip raw1) = a :: b :: u :: e1 :: rest)
    (h2 : pySplit (pyStrip raw2) = a :: b :: u :: e2 :: rest) :
    load_failed_attempts (pre ++ raw1 :: post) =
      load_failed_attempts (pre ++ raw2 :: post) := by
  have hu1 : pyUpper e1 = "LOGIN_FAILED" := by
    rcases he1 with h | h | h <;> rw [h] <;> decide
  have hu2 : pyUpper e2 = "LOGIN_FAILED" := by
    rcases he2 with h | h | h <;> rw [h] <;> decide
  unfold load_failed_attempts
  rw [List.foldl_append, List.foldl_append, List.foldl_cons, List.foldl_cons,
    processLine_event_congr _ hu1 hu2 h1 h2]

theorem claim_C5_witness :
    ("login_failed" = "login_failed" ∨ "login_failed" = "Login_Failed" ∨
        "login_failed" = "LOGIN_FAILED") ∧
      ("LOGIN_FAILED" = "login_failed" ∨ "LOGIN_FAILED" = "Login_Failed" ∨
        "LOGIN_FAILED" = "LOGIN_FAILED") ∧
      pySplit (pyStrip "2025-11-10 17:34:00 alice login_failed") =
        "2025-11-10" :: "17:34:00" :: "alice" :: "login_failed" :: [] ∧
      pySplit (pyStrip "2025-11-10 17:34:00 alice LOGIN_FAILED") =
        "2025-11-10" :: "17:34:00" :: "alice" :: "LOGIN_FAILED" :: [] ∧
      load_failed_attempts ([] ++ "2025-11-10 17:34:00 alice login_failed" :: []) =
        load_failed_attempts ([] ++ "2025-11-10 17:34:00 alice LOGIN_FAILED" :: []) :=
  ⟨by decide, by decide, by decide, by decide,
   claim_C5_case_insensitive [] [] "2025-11-10 17:34:00 alice login_failed"
     "2025-11-10 17:34:00 alice LOGIN_FAILED" "2025-11-10" "17:34:00" "alice"
     "login_failed" "LOGIN_FAILED" [] (by decide) (by decide) (by decide) (by decide)⟩

/-- Claim C6: for every tally and every integer threshold `t ≤ 0`,
`find_suspicious_users tally t` is the entire tally, unchanged. -/
theorem claim_C6_nonpositive_threshold (tally : List (String × Nat)) (t : Int)
    (h : t ≤ 0) : find_suspicious_users tally t = tally := by
  unfold find_suspicious_users
  rw [List.filter_eq_self]
  intro p _
  exact decide_eq_true (le_trans h (Int.natCast_nonneg p.2))

theorem claim_C6_witness :
    (-1 : Int) ≤ 0 ∧
      find_suspicious_users [("alice", 3), ("bob", 1)] (-1) =
        [("alice", 3), ("bob", 1)] :=
  ⟨by decide, claim_C6_nonpositive_threshold [("alice", 3), ("bob", 1)] (-1) (by decide)⟩

/-- Claim C7: with at least three argument tokens, a third token that
does not parse as an integer makes `parse_args` fall back to the default
threshold 5 with a diagnostic (no failure), while one that parses as the
integer `n` is used exactly as given, with no diagnostic. -/
theorem claim_C7_threshold_fallback (argv : List String) (h3 : 3 ≤ argv.length) :
    (pyInt? (argv.getD 2 "") = none →
        (parse_args argv).threshold = 5 ∧ (parse_args argv).diagnostic = true) ∧
      ∀ n : Int, pyInt? (argv.getD 2 "") = some n →
        (parse_args argv).threshold = n ∧ (parse_args argv).diagnostic = false := by
  constructor
  · intro hn
    unfold parse_args
    rw [if_pos h3, hn]
    exact ⟨rfl, rfl⟩
  · intro n hn
    unfold parse_args
    rw [if_pos h3, hn]
    exact ⟨rfl, rfl⟩

theorem claim_C7_witness :
    3 ≤ (["anomaly_detector.py", "logs/auth.log", "abc"] : List String).length ∧
      pyInt? ((["anomaly_detector.py", "logs/auth.log", "abc"] : List String).getD 2 "") =
        none ∧
      (parse_args ["anomaly_detector.py", "logs/auth.log", "abc"]).threshold = 5 ∧
      (parse_args ["anomaly_detector.py", "logs/auth.log", "abc"]).diagnostic = true :=
  ⟨by decide, by decide,
   (claim_C7_threshold_fallback ["anomaly_detector.py", "logs/auth.log", "abc"]
       (by decide)).1 (by decide)⟩

/-- Claim C8: the `Suspicious users` listing is the suspicious entries in
failure-count-descending order (each listed entry's count is at least the
next one's) and contains exactly the suspicious entries; as a pure
function of tally and threshold it is deterministic. -/
theorem claim_C8_report_sorted (tally : List (String × Nat)) (t : Int) :
    List.Chain' (fun a b => b.2 ≤ a.2) (print_summary_listing tally t) ∧
      (print_summary_listing tally t).Perm (find_suspicious_users tally t) :=
  ⟨(pairwise_sortDesc _).chain', perm_sortDesc _⟩

/-- Claim C9: for every input, each tallied count is at least 1, the
number of distinct tallied users is at most `total_failed`, and
`total_failed` is at most `total_lines`. -/
theorem claim_C9_invariant_chain (lines : List String) :
    (∀ p ∈ (load_failed_attempts lines).failed_attempts, 1 ≤ p.2) ∧
      ((load_failed_attempts lines).failed_attempts.map Prod.fst).Nodup ∧
      (load_failed_attempts lines).failed_attempts.length ≤
        (load_failed_attempts lines).total_failed ∧
      (load_failed_attempts lines).total_failed ≤
        (load_failed_attempts lines).total_lines := by
  obtain ⟨h1, h2, h3, h4⟩ := load_inv lines
  refine ⟨h2, h3, ?_, h4⟩
  rw [h1]
  exact length_le_tallySum h2

/-- Claim C10: the threshold filter is idempotent: filtering an already
filtered tally with the same threshold changes nothing. -/
theorem claim_C10_filter_idempotent (tally : List (String × Nat)) (t : Int) :
    find_suspicious_users (find_suspicious_users tally t) t =
      find_suspicious_users tally t := by
  unfold find_suspicious_users
  rw [List.filter_eq_self]
  intro p hp
  exact (List.mem_filter.mp hp).2

end AnomalyDetector
